import Mathlib

/-!
Verification of the knit versioned-text storage engine of this repository.

The development shallowly embeds, in Lean 4:
  * the prototype store `src/knit.py` (class `Knit`: `add`, `getiter`/`get`),
  * the delta helpers `line_delta` / `apply_line_delta` of
    `src/bzrlib/tests/test_knit.py` (lines 1524-1551), together with a model of
    Python's `difflib.SequenceMatcher` which they call,
  * models, written from the specification, of the parts of `bzrlib/knit.py`
    that are exercised by the tests in `src/bzrlib/tests/test_knit.py` but whose
    implementation file is not part of the sources: the `_KnitIndex` metadata
    store, the `_KnitData` record store, and the `KnitVersionedFile` layer
    (`add_lines`, `annotate`, `insert_data_stream`).

Theorems named `cN_...` settle the corresponding claims.
-/

/-! ### Error kinds (spec section 7) -/

/-- Error kinds of the storage engine, from spec section 7. -/
inductive KnitError where
  | headerError : KnitError
  | corrupt (id : String) : KnitError
  | alreadyPresent (id : String) : KnitError
  | notPresent (id : String) : KnitError
  | incompatible : KnitError
deriving DecidableEq, Repr

/-- Decidable equality of fallible results, so concrete scenarios evaluate. -/
instance {ε α : Type} [DecidableEq ε] [DecidableEq α] : DecidableEq (Except ε α) :=
  fun a b =>
    match a, b with
    | .ok x, .ok y =>
      if h : x = y then isTrue (by rw [h]) else isFalse (fun c => h (Except.ok.inj c))
    | .error x, .error y =>
      if h : x = y then isTrue (by rw [h]) else isFalse (fun c => h (Except.error.inj c))
    | .ok _, .error _ => isFalse (fun c => Except.noConfusion c)
    | .error _, .ok _ => isFalse (fun c => Except.noConfusion c)

/-! ### The prototype store, src/knit.py -/

/-- The prototype `Knit` of `src/knit.py`: `l` is the list of
(index-id, text) pairs (`_l`), `v` the list of versions (`_v`, each stored as an
empty tuple, so only its length matters). -/
structure Knit where
  l : List (Nat × String)
  v : List Unit
deriving DecidableEq, Repr

/-- A fresh prototype knit (`Knit.__init__`). -/
def Knit.empty : Knit := ⟨[], []⟩

/-- `Knit.add` of `src/knit.py`: the new version gets index `len(_v)`, every
line of `text` is appended to `_l` tagged with that index, and an empty version
record is appended to `_v`. Returns the updated store and the new index. -/
def Knit.add (k : Knit) (text : List String) : Knit × Nat :=
  let idx := k.v.length
  (⟨k.l ++ text.map (fun line => (idx, line)), k.v ++ [()]⟩, idx)

/-- `Knit.getiter`/`Knit.get` of `src/knit.py`: after checking that the index is
valid (`self._v[index]` raises IndexError otherwise, modelled by `none`), yields
the text of every line of `_l` whose tag equals `index`. -/
def Knit.get (k : Knit) (index : Nat) : Option (List String) :=
  if index < k.v.length then
    some ((k.l.filter (fun p => p.1 == index)).map (fun p => p.2))
  else none

/-- Well-formedness of a prototype knit: every stored line is tagged with an
index of an existing version. `Knit.empty` satisfies it and `Knit.add`
preserves it, so every reachable store is well-formed. -/
def Knit.wf (k : Knit) : Prop :=
  ∀ p ∈ k.l, p.1 < k.v.length

theorem Knit.empty_wf : Knit.empty.wf := by
  intro p hp
  simp [Knit.empty] at hp

theorem Knit.add_wf (k : Knit) (text : List String) (hw : k.wf) :
    (k.add text).1.wf := by
  intro p hp
  simp only [Knit.add, List.mem_append, List.mem_map] at hp
  rcases hp with hp | ⟨line, _, rfl⟩
  · have := hw p hp
    simp [Knit.add]
    omega
  · simp [Knit.add]

/-- C2: add/get round trip for the prototype store `src/knit.py`: on any
well-formed store, adding `text` as a new version and then retrieving the
returned index yields exactly `text`. -/
theorem c2_knit_add_get_roundtrip (k : Knit) (text : List String) (hw : k.wf) :
    (k.add text).1.get (k.add text).2 = some text := by
  have hvalid : k.v.length < k.v.length + 1 := Nat.lt_succ_self _
  simp only [Knit.add, Knit.get, List.length_append, List.length_cons,
    List.length_nil, if_pos (by simpa using hvalid)]
  have hold : k.l.filter (fun p => p.1 == k.v.length) = [] := by
    rw [List.filter_eq_nil_iff]
    intro p hp
    have := hw p hp
    simp only [beq_iff_eq]
    omega
  have hnew : (text.map (fun line => (k.v.length, line))).filter
      (fun p => p.1 == k.v.length) = text.map (fun line => (k.v.length, line)) := by
    rw [List.filter_eq_self]
    intro p hp
    rcases List.mem_map.mp hp with ⟨line, _, rfl⟩
    simp
  rw [List.filter_append, hold, hnew, List.nil_append, List.map_map]
  simp

/-- Witness for C2: the round trip evaluated at a concrete store and text. -/
theorem c2_knit_add_get_roundtrip_witness :
    Knit.empty.wf ∧
      ((Knit.empty.add ["hello\n", "world\n"]).1.get
        (Knit.empty.add ["hello\n", "world\n"]).2 = some ["hello\n", "world\n"]) :=
  ⟨Knit.empty_wf, c2_knit_add_get_roundtrip Knit.empty _ Knit.empty_wf⟩

/-! ### Python difflib model and the delta helpers of src/bzrlib/tests/test_knit.py -/

/-- Modelled from the spec: the longest-matching-block search of Python's
`difflib.SequenceMatcher.find_longest_match` (standard library, not part of this
repository), on which `line_delta` of `src/bzrlib/tests/test_knit.py` relies.
For each `i` in `[alo, ahi)` the inner pass extends, in ascending `j`, every
common-suffix chain ending at a position `j` of `b` in `[blo, bhi)` with
`b[j] = a[i]`; the first strictly longest chain wins, exactly as in the Python
loop. Junk heuristics are omitted: no junk predicate is passed by the callers
and the popular-element heuristic only fires on sequences of 200+ lines, and
with an empty junk set the trailing extension loops of the Python code can
never extend the best chain found by the dynamic program. -/
def findLongestMatch (a b : List String) (alo ahi blo bhi : Nat) : Nat × Nat × Nat :=
  ((List.range' alo (ahi - alo)).foldl
    (fun (st : (Nat → Nat) × Nat × Nat × Nat) i =>
      let j2len := st.1
      let js := (List.range b.length).filter
        (fun j => decide (blo ≤ j) && decide (j < bhi) && (b.getD j "" == a.getD i ""))
      js.foldl
        (fun (st2 : (Nat → Nat) × Nat × Nat × Nat) j =>
          let k := (if j = 0 then 0 else j2len (j - 1)) + 1
          ((fun j2 => if j2 = j then k else st2.1 j2),
            if k > st2.2.2.2 then (i + 1 - k, j + 1 - k, k) else st2.2))
        ((fun _ => 0), st.2))
    ((fun _ => 0), (alo, blo, 0))).2

/-- Modelled from the spec: `difflib.SequenceMatcher.get_matching_blocks`
restricted to a sub-range, written with explicit fuel (the Python code uses a
work queue; each recursion strictly shrinks the range, so fuel
`|a| + |b| + 1` never runs out). The blocks are produced already sorted, which
is the order Python obtains by sorting the queue results. -/
def matchingBlocksFuel (a b : List String) :
    Nat → Nat → Nat → Nat → Nat → List (Nat × Nat × Nat)
  | 0, _, _, _, _ => []
  | fuel + 1, alo, ahi, blo, bhi =>
    let r := findLongestMatch a b alo ahi blo bhi
    let i := r.1
    let j := r.2.1
    let k := r.2.2
    if k = 0 then []
    else
      (if alo < i && blo < j then matchingBlocksFuel a b fuel alo i blo j else []) ++
        [(i, j, k)] ++
        (if i + k < ahi && j + k < bhi then
          matchingBlocksFuel a b fuel (i + k) ahi (j + k) bhi
        else [])

/-- Modelled from the spec: `difflib.SequenceMatcher.get_matching_blocks` on the
whole sequences, with the terminal sentinel block `(len(a), len(b), 0)`. -/
def getMatchingBlocks (a b : List String) : List (Nat × Nat × Nat) :=
  matchingBlocksFuel a b (a.length + b.length + 1) 0 a.length 0 b.length ++
    [(a.length, b.length, 0)]

/-- Tags of `difflib.SequenceMatcher.get_opcodes`. -/
inductive OpTag where
  | equal : OpTag
  | replace : OpTag
  | delete : OpTag
  | insert : OpTag
deriving DecidableEq, Repr

/-- Modelled from the spec: `difflib.SequenceMatcher.get_opcodes` — walks the
matching blocks, emitting a replace/delete/insert opcode for each gap between
consecutive blocks and an equal opcode for each non-empty block. -/
def getOpcodes (a b : List String) : List (OpTag × Nat × Nat × Nat × Nat) :=
  ((getMatchingBlocks a b).foldl
    (fun st bl =>
      let i := st.1
      let j := st.2.1
      let answer := st.2.2
      let ai := bl.1
      let bj := bl.2.1
      let size := bl.2.2
      let answer := answer ++
        (if i < ai && j < bj then [(OpTag.replace, i, ai, j, bj)]
        else if i < ai then [(OpTag.delete, i, ai, j, bj)]
        else if j < bj then [(OpTag.insert, i, ai, j, bj)]
        else [])
      let answer :=
        if size ≠ 0 then answer ++ [(OpTag.equal, ai, ai + size, bj, bj + size)]
        else answer
      (ai + size, bj + size, answer))
    (0, 0, [])).2.2

/-- `line_delta` of `src/bzrlib/tests/test_knit.py` (lines 1524-1532): for every
non-equal opcode it yields the instruction line `'%d,%d,%d\n' % (i1, i2, j2-j1)`
followed by the replacement lines `to_lines[j1:j2]`. -/
def line_delta (from_lines to_lines : List String) : List String :=
  (getOpcodes from_lines to_lines).foldl
    (fun acc op =>
      match op with
      | (OpTag.equal, _, _, _, _) => acc
      | (_, i1, i2, j1, j2) =>
        acc ++
          [Nat.repr i1 ++ "," ++ Nat.repr i2 ++ "," ++ Nat.repr (j2 - j1) ++ "\n"] ++
          (to_lines.drop j1).take (j2 - j1))
    []

/-- Value of a non-empty all-digit character list. -/
def digitsVal (ds : List Char) : Option Nat :=
  if ds ≠ [] ∧ ds.all Char.isDigit then
    some (ds.foldl (fun n c => n * 10 + (c.toNat - 48)) 0)
  else none

/-- Python `long()` applied to an instruction field: tolerates surrounding
whitespace and an optional sign around the decimal literal. -/
def pyLong (cs : List Char) : Option Int :=
  let cs1 := (((cs.dropWhile Char.isWhitespace).reverse.dropWhile
    Char.isWhitespace).reverse)
  match cs1 with
  | '-' :: ds => (digitsVal ds).map (fun n => -(n : Int))
  | '+' :: ds => (digitsVal ds).map (fun n => (n : Int))
  | ds => (digitsVal ds).map (fun n => (n : Int))

/-- Python `str.split(',')` over the characters of a line: splits at every
comma, keeping empty pieces (so the empty string yields one empty piece). -/
def splitOnComma (cs : List Char) : List (List Char) :=
  match cs with
  | [] => [[]]
  | c :: rest =>
    let r := splitOnComma rest
    if c = ',' then [] :: r
    else
      match r with
      | [] => [[c]]
      | h :: t => (c :: h) :: t

/-- Parsing of one instruction line, `a, b, c = map(long, l.split(','))` in
`apply_line_delta`: the line must split on commas into exactly three longs
(anything else raises in Python, modelled by `none`). -/
def parseInstr (l : String) : Option (Int × Int × Int) :=
  match splitOnComma l.data with
  | [x, y, z] =>
    match pyLong x, pyLong y, pyLong z with
    | some a, some b, some c => some (a, b, c)
    | _, _, _ => none
  | _ => none

/-- A Python slice bound over a list of length `n`: negative values index from
the end, and both directions clamp into `[0, n]`. -/
def pySliceIndex (n : Nat) (i : Int) : Nat :=
  if i < 0 then ((n : Int) + i).toNat else min i.toNat n

/-- Python list slice assignment `out[lo:hi] = repl`: the replaced range is
`[lo', max lo' hi')` after clamping, so an inverted range inserts at `lo'`. -/
def pySliceAssign (out : List String) (lo hi : Int) (repl : List String) : List String :=
  let lo' := pySliceIndex out.length lo
  let hi' := pySliceIndex out.length hi
  out.take lo' ++ repl ++ out.drop (max lo' hi')

/-- The loop of `apply_line_delta` of `src/bzrlib/tests/test_knit.py` (lines
1535-1551): reads an instruction line, splices the following `c` lines over
`out[offset+a : offset+b]`, and continues with
`offset = offset + (b - a) + c` — exactly the accumulator update written in the
source. Each step consumes at least the instruction line, so fuel equal to the
length of the remaining delta always suffices (the fuel keeps the recursion
structural). -/
def applyLineDeltaFuel : Nat → List String → List String → Int → Option (List String)
  | _, out, [], _ => some out
  | 0, _, _ :: _, _ => none
  | fuel + 1, out, l :: rest', offset =>
    match parseInstr l with
    | none => none
    | some (a, b, c) =>
      applyLineDeltaFuel fuel
        (pySliceAssign out (offset + a) (offset + b) (rest'.take c.toNat))
        (rest'.drop c.toNat) (offset + (b - a) + c)

/-- `apply_line_delta` of `src/bzrlib/tests/test_knit.py` (lines 1535-1551). -/
def apply_line_delta (basis_lines delta_lines : List String) : Option (List String) :=
  applyLineDeltaFuel delta_lines.length basis_lines delta_lines 0

/-- The concrete basis text of the failing input for the delta identity law. -/
def deltaBugBasis : List String := ["a\n", "b\n", "c\n"]

/-- The concrete target text of the failing input for the delta identity law. -/
def deltaBugTarget : List String := ["x\n", "b\n", "z\n"]

/-- C1: the delta identity law fails on the code as written: with
A = ['a','b','c'] and B = ['x','b','z'], `line_delta(A, B)` is
['0,1,1', 'x', '2,3,1', 'z'] and `apply_line_delta(A, list(line_delta(A, B)))`
returns ['x','b','c','z'], not B. The slip is the offset accumulator of
`apply_line_delta`: it adds `(b - a) + c` where the cumulative length change of
the op is `c - (b - a)`; the repository's own fixture (`test_delta`,
`delta_1_1a`) masks the slip because its only later op inserts at the end of
the list, where Python slice clamping hides the inflated offset. -/
theorem c1_delta_identity_law_fails_on_code :
    line_delta deltaBugBasis deltaBugTarget = ["0,1,1\n", "x\n", "2,3,1\n", "z\n"] ∧
      apply_line_delta deltaBugBasis (line_delta deltaBugBasis deltaBugTarget) =
        some ["x\n", "b\n", "c\n", "z\n"] ∧
      some ["x\n", "b\n", "c\n", "z\n"] ≠ some deltaBugTarget := by
  refine ⟨by decide, by decide, by decide⟩

/-- The repository's own delta fixture (`TEXT_1` to `TEXT_1A`, `test_delta`)
happens to round-trip despite the offset slip: the produced delta matches
`delta_1_1a` and applying it reproduces `TEXT_1A`, because the second
instruction is an end-of-list insertion where slice clamping hides the
inflated offset. -/
theorem line_delta_fixture_masks_offset_slip :
    line_delta
        ["Banana cup cakes:\n", "\n", "- bananas\n", "- eggs\n",
          "- broken tea cups\n"]
        ["Banana cup cake recipe\n", "(serves 6)\n", "\n", "- bananas\n",
          "- eggs\n", "- broken tea cups\n", "- self-raising flour\n"] =
      ["0,1,2\n", "Banana cup cake recipe\n", "(serves 6)\n", "5,5,1\n",
        "- self-raising flour\n"] ∧
      apply_line_delta
        ["Banana cup cakes:\n", "\n", "- bananas\n", "- eggs\n",
          "- broken tea cups\n"]
        ["0,1,2\n", "Banana cup cake recipe\n", "(serves 6)\n", "5,5,1\n",
          "- self-raising flour\n"] =
      some ["Banana cup cake recipe\n", "(serves 6)\n", "\n", "- bananas\n",
        "- eggs\n", "- broken tea cups\n", "- self-raising flour\n"] := by
  refine ⟨by decide, by decide⟩

/-- The loop of `apply_line_delta` with the offset accumulator corrected to the
cumulative length change `c - (b - a)` of each op (what the spec describes);
used to document that the slip in the source is the only obstacle on the
failing input. -/
def applyLineDeltaFixedFuel : Nat → List String → List String → Int → Option (List String)
  | _, out, [], _ => some out
  | 0, _, _ :: _, _ => none
  | fuel + 1, out, l :: rest', offset =>
    match parseInstr l with
    | none => none
    | some (a, b, c) =>
      applyLineDeltaFixedFuel fuel
        (pySliceAssign out (offset + a) (offset + b) (rest'.take c.toNat))
        (rest'.drop c.toNat) (offset + c - (b - a))

/-- With the corrected accumulator the failing input round-trips. -/
theorem apply_line_delta_fixed_roundtrips_failing_input :
    applyLineDeltaFixedFuel (line_delta deltaBugBasis deltaBugTarget).length
        deltaBugBasis (line_delta deltaBugBasis deltaBugTarget) 0 =
      some deltaBugTarget := by
  decide

/-! ### The index layer: model of _KnitIndex (bzrlib/knit.py, not under src/) -/

/-- First match in an association list keyed by version id (Python dict get,
made deterministic by the insertion discipline of `cacheSet`). -/
def assocFind {β : Type} : List (String × β) → String → Option β
  | [], _ => none
  | p :: rest, id => if p.1 = id then some p.2 else assocFind rest id

/-- Store a key/value pair: replaces the value in place when the key is
present, appends otherwise (Python dict assignment). -/
def cacheSet {β : Type} (c : List (String × β)) (id : String) (e : β) :
    List (String × β) :=
  if (assocFind c id).isSome then
    c.map (fun p => if p.1 = id then (id, e) else p)
  else c ++ [(id, e)]

/-- One cached index entry: `(options, pos, size, parents, seq)` — the tuple
`self._cache[version_id][1:]` of `_KnitIndex` (the leading repeated id is
dropped). -/
structure IndexEntry where
  options : List String
  pos : Nat
  size : Nat
  parents : List String
  seq : Nat
deriving DecidableEq, Repr

/-- Modelled from the spec: the state of `_KnitIndex` of `bzrlib/knit.py`
(implementation not under src/): `cache` maps a version id to its latest
entry, `history` records ids in first-insertion order (the sequence
numbering), `disk` is the text appended to the backing index file. -/
structure KnitIndex where
  cache : List (String × IndexEntry)
  history : List String
  disk : List String
deriving DecidableEq, Repr

/-- A fresh, empty index. -/
def emptyIndex : KnitIndex := ⟨[], [], []⟩

/-- Modelled from the spec: `_KnitIndex._cache_version` — the newest entry for
an id wins; a fresh id is appended to the history and numbered by its
position, a re-added id keeps its original sequence number and leaves the
history unchanged. -/
def cacheVersion (idx : KnitIndex) (id : String) (options : List String)
    (pos size : Nat) (parents : List String) : KnitIndex :=
  match assocFind idx.cache id with
  | some old =>
    { idx with cache := cacheSet idx.cache id ⟨options, pos, size, parents, old.seq⟩ }
  | none =>
    { idx with
        cache := cacheSet idx.cache id ⟨options, pos, size, parents, idx.history.length⟩,
        history := idx.history ++ [id] }

/-- `_KnitIndex.has_version`. -/
def hasVersion (idx : KnitIndex) (id : String) : Bool :=
  (assocFind idx.cache id).isSome

/-- `_KnitIndex.get_position`. -/
def getPosition (idx : KnitIndex) (id : String) : Option (Nat × Nat) :=
  (assocFind idx.cache id).map (fun e => (e.pos, e.size))

/-- `_KnitIndex.get_options`. -/
def getOptions (idx : KnitIndex) (id : String) : Option (List String) :=
  (assocFind idx.cache id).map (fun e => e.options)

/-- `_KnitIndex.get_parents_with_ghosts`: the parent list exactly as declared. -/
def getParentsWithGhosts (idx : KnitIndex) (id : String) : Option (List String) :=
  (assocFind idx.cache id).map (fun e => e.parents)

/-- `_KnitIndex.get_parents`: the declared parents that are themselves
present (ghosts dropped). -/
def getParents (idx : KnitIndex) (id : String) : Option (List String) :=
  (assocFind idx.cache id).map (fun e => e.parents.filter (fun p => hasVersion idx p))

/-- `_KnitIndex.num_versions` (= `__len__`): the number of distinct ids. -/
def numVersions (idx : KnitIndex) : Nat :=
  idx.history.length

/-- `_KnitIndex.lookup`: the sequence number of an id. -/
def lookupSeq (idx : KnitIndex) (id : String) : Option Nat :=
  (assocFind idx.cache id).map (fun e => e.seq)

/-- Join a list of strings with a separator (Python `sep.join`). -/
def joinSep (sep : String) : List String → String
  | [] => ""
  | [s] => s
  | s :: rest => s ++ sep ++ joinSep sep rest

/-- Modelled from the spec: `_KnitIndex._version_list_to_index` for a single
parent — a decimal back-reference to the parent's sequence number when the
parent is indexed, otherwise the literal id behind a `.` sentinel. -/
def versionIndexRef (idx : KnitIndex) (version : String) : String :=
  match assocFind idx.cache version with
  | some e => Nat.repr e.seq
  | none => "." ++ version

/-- One entry handed to `add_version`/`add_versions`. -/
structure IndexRecord where
  id : String
  options : List String
  pos : Nat
  size : Nat
  parents : List String
deriving DecidableEq, Repr

/-- The index line appended for one record:
`"\n%s %s %d %d %s :"` rendered against the cache state before the record
itself is cached (so back-references may point at earlier batch entries). -/
def indexLine (idx : KnitIndex) (r : IndexRecord) : String :=
  "\n" ++ r.id ++ " " ++ joinSep "," r.options ++ " " ++ Nat.repr r.pos ++ " " ++
    Nat.repr r.size ++ " " ++ joinSep " " (r.parents.map (versionIndexRef idx)) ++ " :"

/-- Modelled from the spec: the loop of `_KnitIndex.add_versions` — the batch
iterator may fail while being consumed (`.error`); each produced record is
rendered and cached in memory, the collected lines are appended to disk in a
single write only after the whole batch succeeded, and on a failure the
in-memory history and cache snapshots taken before the call are restored. -/
def addVersionsGo (origHistory : List String) (origCache : List (String × IndexEntry))
    (cur : KnitIndex) (lines : List String) :
    List (Except String IndexRecord) → KnitIndex × Option String
  | [] => ({ cur with disk := cur.disk ++ lines }, none)
  | .error e :: _ => ({ cur with history := origHistory, cache := origCache }, some e)
  | .ok r :: rest =>
    addVersionsGo origHistory origCache
      (cacheVersion cur r.id r.options r.pos r.size r.parents)
      (lines ++ [indexLine cur r]) rest

/-- Modelled from the spec: `_KnitIndex.add_versions` — returns the state after
the call together with the error the failing iterator raised, if any. -/
def add_versions (idx : KnitIndex) (batch : List (Except String IndexRecord)) :
    KnitIndex × Option String :=
  addVersionsGo idx.history idx.cache idx [] batch

/-- `_KnitIndex.add_version`: a one-record batch. -/
def add_version (idx : KnitIndex) (r : IndexRecord) : KnitIndex :=
  (add_versions idx [.ok r]).1

/-! ### Index file parsing (C7, C10) -/

/-- The literal knit index format header, `_KnitIndex.HEADER`. -/
def HEADER : String := "# bzr knit index 8\n"

/-- Split a character list on whitespace runs, dropping empty pieces (Python
`str.split()` with no argument); `cur` holds the characters of the token being
read, in reverse. -/
def splitWSGo (cur : List Char) : List Char → List (List Char)
  | [] => if cur = [] then [] else [cur.reverse]
  | c :: rest =>
    if c.isWhitespace then
      if cur = [] then splitWSGo [] rest else cur.reverse :: splitWSGo [] rest
    else splitWSGo (c :: cur) rest

/-- The whitespace-separated tokens of an index line (`l.split()`). -/
def tokensOf (l : String) : List String :=
  (splitWSGo [] l.data).map String.mk

/-- Modelled from the spec: decoding of one parent reference of an index line —
a `.`-prefixed token is a literal (possibly ghost) id, anything else must be a
decimal back-reference into the history built so far. -/
def parentRefValue (hist : List String) (t : String) : Option String :=
  match t.data with
  | '.' :: rest => some (String.mk rest)
  | ds => (digitsVal ds).bind (fun n => hist.get? n)

/-- Modelled from the spec: the grammar of one well-formed index data line —
at least five whitespace tokens, the last being the literal `:`, decimal
offset and length fields, and every parent reference decodable against the
history built so far. Lines outside this grammar are the "malformed individual
data lines" the spec says are skipped. -/
def lineOk (hist : List String) (l : String) : Bool :=
  let toks := tokensOf l
  decide (5 ≤ toks.length) &&
    decide (toks.getLast? = some ":") &&
    (digitsVal (toks.getD 2 "").data).isSome &&
    (digitsVal (toks.getD 3 "").data).isSome &&
    ((toks.drop 4).dropLast.all (fun t => (parentRefValue hist t).isSome))

/-- Modelled from the spec: parsing of one index data line — a line inside the
grammar updates the index through `cacheVersion` with its id, comma-separated
options, decimal position and size, and decoded parents; a malformed line
yields no update. -/
def parseIndexLine (idx : KnitIndex) (l : String) : Option KnitIndex :=
  if lineOk idx.history l then
    let toks := tokensOf l
    some (cacheVersion idx (toks.getD 0 "")
      ((splitOnComma (toks.getD 1 "").data).map String.mk)
      ((digitsVal (toks.getD 2 "").data).getD 0)
      ((digitsVal (toks.getD 3 "").data).getD 0)
      ((toks.drop 4).dropLast.filterMap (parentRefValue idx.history)))
  else none

/-- One parsing step: a malformed line leaves the index unchanged. -/
def indexStep (idx : KnitIndex) (l : String) : KnitIndex :=
  (parseIndexLine idx l).getD idx

/-- Modelled from the spec: opening an index file — an empty file yields an
empty index (`test_knit_index_ignores_empty_files`), a first line that is not
the literal format header is a fatal header error, and with a valid header the
data lines are folded left to right, skipping malformed ones. -/
def parseIndex (ls : List String) : Except KnitError KnitIndex :=
  match ls with
  | [] => .ok emptyIndex
  | h :: rest =>
    if h = HEADER then .ok (rest.foldl indexStep emptyIndex)
    else .error .headerError

/-! ### Association-list lemmas for the cache -/

theorem assocFind_map_set {β : Type} (c : List (String × β)) (id : String) (e : β) :
    assocFind (c.map (fun p => if p.1 = id then (id, e) else p)) id =
      (assocFind c id).map (fun _ => e) := by
  induction c with
  | nil => rfl
  | cons p rest ih =>
    by_cases hp : p.1 = id
    · simp [assocFind, hp]
    · simp [assocFind, hp, ih]

theorem assocFind_map_set_ne {β : Type} (c : List (String × β)) (id id2 : String)
    (e : β) (h : id ≠ id2) :
    assocFind (c.map (fun p => if p.1 = id2 then (id2, e) else p)) id =
      assocFind c id := by
  induction c with
  | nil => rfl
  | cons p rest ih =>
    by_cases hp : p.1 = id2
    · simp [assocFind, hp, Ne.symm h, ih]
    · by_cases hq : p.1 = id <;> simp [assocFind, hp, hq, h, ih]

theorem assocFind_append_none {β : Type} (c : List (String × β)) (id : String) (e : β)
    (h : assocFind c id = none) : assocFind (c ++ [(id, e)]) id = some e := by
  induction c with
  | nil => simp [assocFind]
  | cons p rest ih =>
    by_cases hp : p.1 = id
    · simp [assocFind, hp] at h
    · simp [assocFind, hp] at h ⊢
      exact ih h

theorem assocFind_append_single_ne {β : Type} (c : List (String × β)) (id id2 : String)
    (e : β) (h : id ≠ id2) : assocFind (c ++ [(id2, e)]) id = assocFind c id := by
  induction c with
  | nil => simp [assocFind, Ne.symm h]
  | cons p rest ih =>
    by_cases hp : p.1 = id <;> simp [assocFind, hp, ih]

theorem assocFind_cacheSet_self {β : Type} (c : List (String × β)) (id : String) (e : β) :
    assocFind (cacheSet c id e) id = some e := by
  unfold cacheSet
  cases h : assocFind c id with
  | some v => simp [h, assocFind_map_set]
  | none => simp [h, assocFind_append_none c id e h]

theorem assocFind_cacheSet_ne {β : Type} (c : List (String × β)) (id id2 : String)
    (e : β) (h : id ≠ id2) : assocFind (cacheSet c id2 e) id = assocFind c id := by
  unfold cacheSet
  cases hs : assocFind c id2 with
  | some v => simp [hs, assocFind_map_set_ne c id id2 e h]
  | none => simp [hs, assocFind_append_single_ne c id id2 e h]

/-! ### C5: atomicity of add_versions -/

theorem cacheVersion_disk (idx : KnitIndex) (id : String) (options : List String)
    (pos size : Nat) (parents : List String) :
    (cacheVersion idx id options pos size parents).disk = idx.disk := by
  unfold cacheVersion
  cases assocFind idx.cache id <;> rfl

theorem addVersionsGo_fail (idx : KnitIndex) (batch : List (Except String IndexRecord)) :
    ∀ (cur : KnitIndex) (lines : List String) (e : String),
      cur.disk = idx.disk →
      (addVersionsGo idx.history idx.cache cur lines batch).2 = some e →
      (addVersionsGo idx.history idx.cache cur lines batch).1 = idx := by
  induction batch with
  | nil =>
    intro cur lines e hdisk h
    simp [addVersionsGo] at h
  | cons hd tl ihb =>
    intro cur lines e hdisk h
    cases hd with
    | error s =>
      simp only [addVersionsGo]
      cases idx with
      | mk icache ihist idisk =>
        cases cur with
        | mk ccache chist cdisk =>
          simp_all
    | ok r =>
      simp only [addVersionsGo] at h ⊢
      exact ihb _ _ e (by rw [cacheVersion_disk]; exact hdisk) h

/-- C5: batched index adds are atomic — whenever `add_versions` reports a
failure while consuming its batch (the iterator raised after producing any
number of valid entries), the index state after the call is exactly the state
before it: the in-memory cache and history are restored from the snapshots and
nothing was appended to disk, so no entry of the batch is visible. -/
theorem c5_add_versions_atomic (idx : KnitIndex)
    (batch : List (Except String IndexRecord)) (e : String)
    (h : (add_versions idx batch).2 = some e) :
    (add_versions idx batch).1 = idx :=
  addVersionsGo_fail idx batch idx [] e rfl h

/-- The index of `test_add_versions_fails_clean` before the failing batch. -/
def c5IndexBefore : KnitIndex :=
  add_version emptyIndex ⟨"a-1", ["fulltext"], 0, 0, []⟩

/-- The failing batch of `test_add_versions_fails_clean`: two valid entries,
then the generator raises. -/
def c5Batch : List (Except String IndexRecord) :=
  [.ok ⟨"a-2", ["fulltext"], 0, 0, ["a-1"]⟩,
    .ok ⟨"a-3", ["fulltext"], 0, 0, ["a-2"]⟩,
    .error "StopEarly"]

/-- Witness for C5: the scenario of `test_add_versions_fails_clean`. -/
theorem c5_add_versions_atomic_witness :
    (add_versions c5IndexBefore c5Batch).2 = some "StopEarly" ∧
      (add_versions c5IndexBefore c5Batch).1 = c5IndexBefore :=
  ⟨by decide, c5_add_versions_atomic c5IndexBefore c5Batch "StopEarly" (by decide)⟩

/-! ### C10: the index does not enforce uniqueness, newest entry wins -/

theorem cacheVersion_find_self (idx : KnitIndex) (id : String) (o : List String)
    (p s : Nat) (par : List String) :
    ∃ q, assocFind (cacheVersion idx id o p s par).cache id = some ⟨o, p, s, par, q⟩ := by
  unfold cacheVersion
  cases h : assocFind idx.cache id with
  | some old => exact ⟨old.seq, by simp [assocFind_cacheSet_self]⟩
  | none => exact ⟨idx.history.length, by simp [assocFind_cacheSet_self]⟩

theorem cacheVersion_history_present (idx : KnitIndex) (id : String) (o : List String)
    (p s : Nat) (par : List String) (h : (assocFind idx.cache id).isSome) :
    (cacheVersion idx id o p s par).history = idx.history := by
  unfold cacheVersion
  cases hh : assocFind idx.cache id with
  | some old => rfl
  | none => rw [hh] at h; simp at h

theorem add_version_cache (X : KnitIndex) (r : IndexRecord) :
    (add_version X r).cache = (cacheVersion X r.id r.options r.pos r.size r.parents).cache :=
  rfl

theorem add_version_history (X : KnitIndex) (r : IndexRecord) :
    (add_version X r).history =
      (cacheVersion X r.id r.options r.pos r.size r.parents).history :=
  rfl

/-- The index file with duplicate entries of `test_read_duplicate_entries`. -/
def dupEntriesFile : List String :=
  [HEADER, "parent options 0 1 :", "version options1 0 1 0 :",
    "version options2 1 2 .other :", "version options3 3 4 0 .other :"]

/-- The index obtained by parsing `dupEntriesFile`. -/
def dupIndex : KnitIndex :=
  (parseIndex dupEntriesFile).toOption.getD emptyIndex

/-- C10: the index layer does not enforce version-id uniqueness and the newest
entry wins. Re-adding an id through `add_version` succeeds, and afterwards
`get_position`, `get_options` and the parent accessor report the second
entry's values while `num_versions` (which counts distinct ids) is unchanged;
the same last-entry-wins rule applies to duplicate lines read from an index
file, shown on the duplicate-entry fixture of `test_read_duplicate_entries`. -/
theorem c10_index_last_entry_wins :
    (∀ (idx : KnitIndex) (id : String) (o1 o2 : List String) (p1 s1 p2 s2 : Nat)
        (par1 par2 : List String),
      getPosition (add_version (add_version idx ⟨id, o1, p1, s1, par1⟩)
          ⟨id, o2, p2, s2, par2⟩) id = some (p2, s2) ∧
        getOptions (add_version (add_version idx ⟨id, o1, p1, s1, par1⟩)
          ⟨id, o2, p2, s2, par2⟩) id = some o2 ∧
        getParentsWithGhosts (add_version (add_version idx ⟨id, o1, p1, s1, par1⟩)
          ⟨id, o2, p2, s2, par2⟩) id = some par2 ∧
        numVersions (add_version (add_version idx ⟨id, o1, p1, s1, par1⟩)
          ⟨id, o2, p2, s2, par2⟩) =
          numVersions (add_version idx ⟨id, o1, p1, s1, par1⟩)) ∧
      parseIndex dupEntriesFile = .ok dupIndex ∧
      numVersions dupIndex = 2 ∧
      lookupSeq dupIndex "version" = some 1 ∧
      getPosition dupIndex "version" = some (3, 4) ∧
      getOptions dupIndex "version" = some ["options3"] ∧
      getParentsWithGhosts dupIndex "version" = some ["parent", "other"] := by
  refine ⟨?_, by decide, by decide, by decide, by decide, by decide, by decide⟩
  intro idx id o1 o2 p1 s1 p2 s2 par1 par2
  obtain ⟨q1, hq1⟩ := cacheVersion_find_self idx id o1 p1 s1 par1
  have hfind1 : assocFind (add_version idx ⟨id, o1, p1, s1, par1⟩).cache id =
      some ⟨o1, p1, s1, par1, q1⟩ := by
    rw [add_version_cache]; exact hq1
  set X := add_version idx ⟨id, o1, p1, s1, par1⟩ with hX
  have hcache2 : (add_version X ⟨id, o2, p2, s2, par2⟩).cache =
      cacheSet X.cache id ⟨o2, p2, s2, par2, q1⟩ := by
    rw [add_version_cache]
    unfold cacheVersion
    rw [hfind1]
  have hfind2 : assocFind (add_version X ⟨id, o2, p2, s2, par2⟩).cache id =
      some ⟨o2, p2, s2, par2, q1⟩ := by
    rw [hcache2]; exact assocFind_cacheSet_self _ _ _
  have hhist2 : (add_version X ⟨id, o2, p2, s2, par2⟩).history = X.history := by
    rw [add_version_history]
    exact cacheVersion_history_present X id o2 p2 s2 par2 (by rw [hfind1]; rfl)
  refine ⟨?_, ?_, ?_, ?_⟩
  · simp [getPosition, hfind2]
  · simp [getOptions, hfind2]
  · simp [getParentsWithGhosts, hfind2]
  · simp [numVersions, hhist2]

/-! ### C7: strict header, tolerant data lines -/

/-- The index state reached after folding a list of data lines. -/
def foldIndexState (lines : List String) : KnitIndex :=
  lines.foldl indexStep emptyIndex

theorem cacheVersion_cache (idx : KnitIndex) (id2 : String) (o : List String)
    (p s : Nat) (par : List String) :
    (cacheVersion idx id2 o p s par).cache =
      cacheSet idx.cache id2
        ⟨o, p, s, par,
          ((assocFind idx.cache id2).map (fun e => e.seq)).getD idx.history.length⟩ := by
  unfold cacheVersion
  cases hh : assocFind idx.cache id2 <;> simp [hh]

theorem hasVersion_cacheVersion_mono (idx : KnitIndex) (id id2 : String)
    (o : List String) (p s : Nat) (par : List String) (h : hasVersion idx id = true) :
    hasVersion (cacheVersion idx id2 o p s par) id = true := by
  unfold hasVersion at h ⊢
  rw [cacheVersion_cache]
  by_cases he : id = id2
  · subst he
    rw [assocFind_cacheSet_self]
    rfl
  · rw [assocFind_cacheSet_ne _ _ _ _ he]
    exact h

theorem hasVersion_indexStep_mono (idx : KnitIndex) (l : String) (id : String)
    (h : hasVersion idx id = true) : hasVersion (indexStep idx l) id = true := by
  unfold indexStep parseIndexLine
  by_cases hok : lineOk idx.history l = true
  · simp only [hok, if_true, Option.getD_some]
    exact hasVersion_cacheVersion_mono idx id _ _ _ _ _ h
  · simp only [hok, if_false, Option.getD_none]
    exact h

theorem hasVersion_foldl_mono (post : List String) :
    ∀ (idx : KnitIndex) (id : String), hasVersion idx id = true →
      hasVersion (post.foldl indexStep idx) id = true := by
  induction post with
  | nil =>
    intro idx id h
    simpa using h
  | cons l rest ih =>
    intro idx id h
    exact ih _ _ (hasVersion_indexStep_mono idx l id h)

theorem indexStep_of_bad (idx : KnitIndex) (l : String)
    (h : lineOk idx.history l = false) : indexStep idx l = idx := by
  unfold indexStep parseIndexLine
  simp [h]

theorem indexStep_of_ok (idx : KnitIndex) (l : String)
    (h : lineOk idx.history l = true) :
    indexStep idx l =
      cacheVersion idx ((tokensOf l).getD 0 "")
        ((splitOnComma ((tokensOf l).getD 1 "").data).map String.mk)
        ((digitsVal ((tokensOf l).getD 2 "").data).getD 0)
        ((digitsVal ((tokensOf l).getD 3 "").data).getD 0)
        (((tokensOf l).drop 4).dropLast.filterMap (parentRefValue idx.history)) := by
  unfold indexStep parseIndexLine
  simp [h]

/-- C7: index parsing is strict about the header and tolerant of bad data
lines — a first line differing from the literal header is a fatal header
error; with a valid header the parse always succeeds, a malformed data line
(one outside the line grammar at its position) is skipped with no effect on
the result, and a well-formed data line's version id is retained in the parsed
index whatever comes after it. -/
theorem c7_index_header_strict_lines_tolerant :
    (∀ (h : String) (rest : List String), h ≠ HEADER →
        parseIndex (h :: rest) = .error .headerError) ∧
      (∀ rest : List String, ∃ idx, parseIndex (HEADER :: rest) = .ok idx) ∧
      (∀ (pre : List String) (bad : String) (post : List String),
        lineOk (foldIndexState pre).history bad = false →
        parseIndex (HEADER :: (pre ++ bad :: post)) =
          parseIndex (HEADER :: (pre ++ post))) ∧
      (∀ (pre : List String) (l : String) (post : List String),
        lineOk (foldIndexState pre).history l = true →
        parseIndex (HEADER :: (pre ++ l :: post)) =
            .ok ((pre ++ l :: post).foldl indexStep emptyIndex) ∧
          hasVersion ((pre ++ l :: post).foldl indexStep emptyIndex)
            ((tokensOf l).getD 0 "") = true) := by
  have hok_header : ∀ rest : List String,
      parseIndex (HEADER :: rest) = .ok (rest.foldl indexStep emptyIndex) := by
    intro rest
    simp [parseIndex]
  refine ⟨?_, ?_, ?_, ?_⟩
  · intro h rest hne
    simp only [parseIndex]
    rw [if_neg hne]
  · intro rest
    exact ⟨rest.foldl indexStep emptyIndex, hok_header rest⟩
  · intro pre bad post hbad
    unfold foldIndexState at hbad
    rw [hok_header, hok_header, List.foldl_append, List.foldl_append, List.foldl_cons,
      indexStep_of_bad _ _ hbad]
  · intro pre l post hok
    unfold foldIndexState at hok
    refine ⟨hok_header _, ?_⟩
    rw [List.foldl_append, List.foldl_cons]
    refine hasVersion_foldl_mono post _ _ ?_
    rw [indexStep_of_ok _ _ hok]
    obtain ⟨q, hq⟩ := cacheVersion_find_self (pre.foldl indexStep emptyIndex)
      ((tokensOf l).getD 0 "")
      ((splitOnComma ((tokensOf l).getD 1 "").data).map String.mk)
      ((digitsVal ((tokensOf l).getD 2 "").data).getD 0)
      ((digitsVal ((tokensOf l).getD 3 "").data).getD 0)
      (((tokensOf l).drop 4).dropLast.filterMap
        (parentRefValue (pre.foldl indexStep emptyIndex).history))
    unfold hasVersion
    rw [hq]
    rfl

/-- Witness for C7: the corrupted-header, corrupted-line and well-formed-line
scenarios of the test suite evaluated concretely. -/
theorem c7_index_header_strict_lines_tolerant_witness :
    parseIndex ["not a bzr knit index header\n"] = .error .headerError ∧
      parseIndex (HEADER :: (["corrupted"] ++ "corrupted options 0 1 .b .c " ::
          ["version options 0 1 :"])) =
        parseIndex (HEADER :: (["corrupted"] ++ ["version options 0 1 :"])) ∧
      hasVersion (((["corrupted", "corrupted options 0 1 .b .c "]) ++
          "version options 0 1 :" :: ([] : List String)).foldl indexStep emptyIndex)
        ((tokensOf "version options 0 1 :").getD 0 "") = true :=
  ⟨c7_index_header_strict_lines_tolerant.1 "not a bzr knit index header\n" [] (by decide),
    c7_index_header_strict_lines_tolerant.2.2.1 ["corrupted"]
      "corrupted options 0 1 .b .c " ["version options 0 1 :"] (by decide),
    (c7_index_header_strict_lines_tolerant.2.2.2
      ["corrupted", "corrupted options 0 1 .b .c "]
      "version options 0 1 :" [] (by decide)).2⟩

/-! ### The data store: model of _KnitData (bzrlib/knit.py, not under src/) -/

/-- Modelled from the spec: one physical record of the data store after
decompression — the self-describing block `version <id> <count> <sha1>`,
payload lines, and the terminator `end <id>`, kept together with the
still-compressed bytes it was read from. The digest is kept abstract (`σ`). -/
structure KnitDataRecord (σ : Type) where
  headerId : String
  declaredCount : Nat
  declaredSha : σ
  payload : List String
  endId : String
  raw : List Nat
deriving DecidableEq, Repr

/-- Modelled from the spec: `_KnitData._parse_record` as used by
`read_records` — after decompressing and parsing (given here by the structured
record), verify that the terminator id equals the requested id, that the
payload line count equals the declared count, and that the digest of the
payload equals the declared digest; any mismatch is a corruption error naming
the record, and data is returned only when all three checks pass. -/
def parseRecord {σ : Type} [DecidableEq σ] (sha : List String → σ)
    (version_id : String) (r : KnitDataRecord σ) : Except KnitError (List String × σ) :=
  if r.endId ≠ version_id then .error (.corrupt version_id)
  else if r.payload.length ≠ r.declaredCount then .error (.corrupt version_id)
  else if sha r.payload ≠ r.declaredSha then .error (.corrupt version_id)
  else .ok (r.payload, r.declaredSha)

/-- Modelled from the spec: `_KnitData.read_records` — for each request
`(id, offset, length)` the record is located in the data file (absence is an
error) and fully verified by `parseRecord`; the first failure aborts the
whole read, so no data is returned for a corrupt record. -/
def read_records {σ : Type} [DecidableEq σ] (sha : List String → σ)
    (datafile : Nat → Nat → Option (KnitDataRecord σ)) :
    List (String × Nat × Nat) → Except KnitError (List (String × List String × σ))
  | [] => .ok []
  | (id, pos, size) :: rest =>
    match datafile pos size with
    | none => .error (.notPresent id)
    | some r =>
      match parseRecord sha id r with
      | .error e => .error e
      | .ok pr => (read_records sha datafile rest).map (fun l => (id, pr.1, pr.2) :: l)

/-- Modelled from the spec: `_KnitData.read_records_iter_raw` — for each
request only the cheap terminator-id check is performed and the
still-compressed bytes are returned verbatim; line-count and digest are not
examined. -/
def read_records_iter_raw {σ : Type}
    (datafile : Nat → Nat → Option (KnitDataRecord σ)) :
    List (String × Nat × Nat) → Except KnitError (List (String × List Nat))
  | [] => .ok []
  | (id, pos, size) :: rest =>
    match datafile pos size with
    | none => .error (.notPresent id)
    | some r =>
      if r.endId ≠ id then .error (.corrupt id)
      else (read_records_iter_raw datafile rest).map (fun l => (id, r.raw) :: l)

theorem parseRecord_error_of_mismatch {σ : Type} [DecidableEq σ]
    (sha : List String → σ) (id : String) (r : KnitDataRecord σ)
    (hbad : r.endId ≠ id ∨ r.payload.length ≠ r.declaredCount ∨
      sha r.payload ≠ r.declaredSha) :
    parseRecord sha id r = .error (.corrupt id) := by
  unfold parseRecord
  by_cases h1 : r.endId = id
  · by_cases h2 : r.payload.length = r.declaredCount
    · by_cases h3 : sha r.payload = r.declaredSha
      · rcases hbad with hb | hb | hb <;> exact absurd (by assumption) hb
      · simp [h1, h2, h3]
    · simp [h1, h2]
  · simp [h1]

/-- C3: full record reads verify the terminator id, the line count and the
digest, and fail on any mismatch — whenever a request in the batch addresses a
record whose terminator id differs from the requested id, or whose payload
line count differs from the declared count, or whose payload digest differs
from the declared digest, `read_records` returns a corruption error and no
data. -/
theorem c3_read_records_verifies {σ : Type} [DecidableEq σ]
    (sha : List String → σ) (datafile : Nat → Nat → Option (KnitDataRecord σ))
    (requests : List (String × Nat × Nat)) (id : String) (pos size : Nat)
    (r : KnitDataRecord σ) (hmem : (id, pos, size) ∈ requests)
    (hrec : datafile pos size = some r)
    (hbad : r.endId ≠ id ∨ r.payload.length ≠ r.declaredCount ∨
      sha r.payload ≠ r.declaredSha) :
    ∃ e, read_records sha datafile requests = .error e := by
  induction requests with
  | nil => cases hmem
  | cons hd tl ih =>
    rcases List.mem_cons.mp hmem with heq | htl
    · subst heq
      unfold read_records
      simp only [hrec, parseRecord_error_of_mismatch sha id r hbad]
      exact ⟨.corrupt id, rfl⟩
    · obtain ⟨hd1, hd2, hd3⟩ := hd
      unfold read_records
      cases hdf : datafile hd2 hd3 with
      | none =>
        simp only [hdf]
        exact ⟨.notPresent hd1, rfl⟩
      | some r2 =>
        simp only [hdf]
        cases hpr : parseRecord sha hd1 r2 with
        | error e =>
          simp only [hpr]
          exact ⟨e, rfl⟩
        | ok pr =>
          simp only [hpr]
          obtain ⟨e, he⟩ := ih htl
          rw [he]
          exact ⟨e, rfl⟩

/-- A concrete digest for witnesses: total byte length of the payload. -/
def lenSha : List String → Nat :=
  fun ls => ls.foldl (fun n s => n + s.length) 0

/-- The record of `test_not_enough_lines`: the header declares two lines and
the digest of `foo\n`, but the payload holds a single line. -/
def recNotEnoughLines : KnitDataRecord Nat :=
  ⟨"rev-id-1", 2, 4, ["foo\n"], "rev-id-1", [31, 139, 8]⟩

/-- Witness for C3: the count-mismatched record of `test_not_enough_lines`
makes `read_records` fail. -/
theorem c3_read_records_verifies_witness :
    ((("rev-id-1", 0, 44) : String × Nat × Nat) ∈
        [(("rev-id-1", 0, 44) : String × Nat × Nat)]) ∧
      recNotEnoughLines.payload.length ≠ recNotEnoughLines.declaredCount ∧
      ∃ e, read_records lenSha (fun _ _ => some recNotEnoughLines)
        [("rev-id-1", 0, 44)] = .error e :=
  ⟨by decide, by decide,
    c3_read_records_verifies lenSha (fun _ _ => some recNotEnoughLines)
      [("rev-id-1", 0, 44)] "rev-id-1" 0 44 recNotEnoughLines (by decide) rfl
      (Or.inr (Or.inl (by decide)))⟩

/-- C4: raw record reads check only the record id — a request whose record's
terminator id differs from the requested id is a corruption error, while a
record whose terminator id matches is returned as its still-compressed bytes
unchanged even when its payload line count disagrees with the declared count. -/
theorem c4_read_records_iter_raw_checks_only_id {σ : Type}
    (datafile : Nat → Nat → Option (KnitDataRecord σ)) :
    (∀ (requests : List (String × Nat × Nat)) (id : String) (pos size : Nat)
        (r : KnitDataRecord σ), (id, pos, size) ∈ requests →
        datafile pos size = some r → r.endId ≠ id →
        ∃ e, read_records_iter_raw datafile requests = .error e) ∧
      (∀ (id : String) (pos size : Nat) (r : KnitDataRecord σ),
        datafile pos size = some r → r.endId = id →
        r.payload.length ≠ r.declaredCount →
        read_records_iter_raw datafile [(id, pos, size)] = .ok [(id, r.raw)]) := by
  constructor
  · intro requests
    induction requests with
    | nil =>
      intro id pos size r hmem
      cases hmem
    | cons hd tl ih =>
      intro id pos size r hmem hrec hid
      rcases List.mem_cons.mp hmem with heq | htl
      · subst heq
        unfold read_records_iter_raw
        simp only [hrec, if_pos hid]
        exact ⟨.corrupt id, rfl⟩
      · obtain ⟨hd1, hd2, hd3⟩ := hd
        unfold read_records_iter_raw
        cases hdf : datafile hd2 hd3 with
        | none =>
          simp only [hdf]
          exact ⟨.notPresent hd1, rfl⟩
        | some r2 =>
          simp only [hdf]
          by_cases hid2 : r2.endId ≠ hd1
          · simp only [if_pos hid2]
            exact ⟨.corrupt hd1, rfl⟩
          · simp only [if_neg hid2]
            obtain ⟨e, he⟩ := ih id pos size r htl hrec hid
            rw [he]
            exact ⟨e, rfl⟩
  · intro id pos size r hrec hid hcnt
    unfold read_records_iter_raw
    simp only [hrec, hid]
    rw [if_neg (fun h => h rfl)]
    rfl

/-- Witness for C4: the wrong-id request of `test_mismatched_version_id`
fails, while the count-mismatched record of `test_not_enough_lines` is
returned raw and unchanged. -/
theorem c4_read_records_iter_raw_checks_only_id_witness :
    (∃ e, read_records_iter_raw (fun _ _ => some recNotEnoughLines)
        [("rev-id-2", 0, 44)] = .error e) ∧
      read_records_iter_raw (fun _ _ => some recNotEnoughLines)
        [("rev-id-1", 0, 44)] = .ok [("rev-id-1", recNotEnoughLines.raw)] :=
  ⟨(c4_read_records_iter_raw_checks_only_id (fun _ _ => some recNotEnoughLines)).1
      [("rev-id-2", 0, 44)] "rev-id-2" 0 44 recNotEnoughLines (by decide) rfl (by decide),
    (c4_read_records_iter_raw_checks_only_id (fun _ _ => some recNotEnoughLines)).2
      "rev-id-1" 0 44 recNotEnoughLines rfl (by decide) (by decide)⟩

/-! ### The versioned file layer: model of KnitVersionedFile (bzrlib/knit.py, not under src/) -/

/-- One stored version: its declared parent list and its annotated content,
a list of (origin id, line) pairs. -/
structure VFEntry where
  parents : List String
  content : List (String × String)
deriving DecidableEq, Repr

/-- Modelled from the spec: the observable state of a `KnitVersionedFile` — the
versions in insertion order. The index lines and data records of the two
backing files are appended in the same order, one per entry, so equality of
`entries` models byte-identical backing storage. -/
structure KnitVF where
  entries : List (String × VFEntry)
deriving DecidableEq, Repr

/-- A fresh, empty versioned file. -/
def KnitVF.empty : KnitVF := ⟨[]⟩

/-- The stored entry of a version id, if present. -/
def lookupVF (vf : KnitVF) (id : String) : Option VFEntry :=
  assocFind vf.entries id

/-- `KnitVersionedFile.has_version`. -/
def hasVersionVF (vf : KnitVF) (id : String) : Bool :=
  (lookupVF vf id).isSome

/-- `KnitVersionedFile.get_lines`: the text lines of a stored version. -/
def getLinesVF (vf : KnitVF) (id : String) : Option (List String) :=
  (lookupVF vf id).map (fun e => e.content.map (fun p => p.2))

/-- `KnitVersionedFile.annotate`: the (origin, line) pairs of a stored
version. -/
def annotateVF (vf : KnitVF) (id : String) : Option (List (String × String)) :=
  (lookupVF vf id).map (fun e => e.content)

/-- `KnitVersionedFile.get_parents` (declared parents, ghosts included). -/
def getParentsVF (vf : KnitVF) (id : String) : Option (List String) :=
  (lookupVF vf id).map (fun e => e.parents)

/-- The splice `content[j:j+n] = parent[i:i+n]` used by the annotation merge:
for a genuine matching block the replaced and replacing slices have the same
length, so positions are preserved. -/
def copyBlock (parent content : List (String × String)) (i j n : Nat) :
    List (String × String) :=
  content.take j ++ (parent.drop i).take n ++ content.drop (j + n)

/-- Modelled from the spec: `KnitVersionedFile._merge_annotations` — the new
text starts with every line tagged with the new version's id; then, for each
parent in order, every matching block between the parent's text and the new
text copies the parent's annotated pairs over those lines, so an unchanged
line keeps its ancestor's origin and a line matching no parent keeps the new
version's id. -/
def mergeAnnotations (newId : String) (parentContents : List (List (String × String)))
    (newLines : List String) : List (String × String) :=
  parentContents.foldl
    (fun content parent =>
      (getMatchingBlocks (parent.map (fun p => p.2)) (content.map (fun p => p.2))).foldl
        (fun content2 bl => copyBlock parent content2 bl.1 bl.2.1 bl.2.2) content)
    (newLines.map (fun l => (newId, l)))

/-- Modelled from the spec: `KnitVersionedFile.add_lines` — a duplicate id is
rejected unconditionally, before any content comparison; otherwise the new
version is appended with annotations merged from the present listed parents
(ghost parents contribute nothing). -/
def add_lines (vf : KnitVF) (id : String) (parents : List String)
    (lines : List String) : Except KnitError KnitVF :=
  if hasVersionVF vf id then .error (.alreadyPresent id)
  else
    .ok ⟨vf.entries ++
      [(id, ⟨parents,
        mergeAnnotations id
          (parents.filterMap (fun p => (lookupVF vf p).map (fun e => e.content)))
          lines⟩)]⟩

/-- The format signature of the plain-factory knits the tests exchange. -/
def formatSignature : String := "knit-delta-plain"

/-- One record of a data stream: the id, declared parents and the decoded
content of the raw record bytes being relayed. -/
structure StreamEntry where
  id : String
  parents : List String
  content : List (String × String)
deriving DecidableEq, Repr

/-- Modelled from the spec: `KnitVersionedFile.get_data_stream` — the metadata
list and raw bytes of the requested versions, in store order here (the tests
request ids in insertion order). -/
def get_data_stream (vf : KnitVF) (ids : List String) : String × List StreamEntry :=
  (formatSignature,
    ids.filterMap (fun id => (lookupVF vf id).map (fun e => ⟨id, e.parents, e.content⟩)))

/-- The record-insertion loop of `insert_data_stream`: a record whose id is
already present has its text lines and parents compared against the existing
entry — a mismatch is a corruption error (the stream disagrees with committed
history), a match drops the record silently; a new record is appended
verbatim. -/
def insertGo (vf : KnitVF) : List StreamEntry → Except KnitError KnitVF
  | [] => .ok vf
  | e :: rest =>
    match lookupVF vf e.id with
    | some existing =>
      if existing.content.map (fun p => p.2) = e.content.map (fun p => p.2) ∧
          existing.parents = e.parents then
        insertGo vf rest
      else .error (.corrupt e.id)
    | none => insertGo ⟨vf.entries ++ [(e.id, ⟨e.parents, e.content⟩)]⟩ rest

/-- Modelled from the spec: `KnitVersionedFile.insert_data_stream` — the
stream's format signature must equal the destination's own before any record
is read; then the records are processed in order by `insertGo`. Buffering is
not modelled: it only batches the physical appends and does not change the
bytes that end up stored. -/
def insert_data_stream (vf : KnitVF) (fmt : String) (entries : List StreamEntry) :
    Except KnitError KnitVF :=
  if fmt ≠ formatSignature then .error .incompatible
  else insertGo vf entries

/-! ### C8: re-adding a version id always errors -/

/-- C8: `add_lines` rejects a duplicate id unconditionally — when `id` is
already stored, re-adding it raises the already-present error even when the
supplied lines are byte-identical to the stored content (the hypothesis says
exactly that the stored text equals the lines being re-added). -/
theorem c8_repeated_add_always_errors (vf : KnitVF) (id : String)
    (parents : List String) (lines : List String)
    (hstored : getLinesVF vf id = some lines) :
    add_lines vf id parents lines = .error (.alreadyPresent id) := by
  have hpresent : hasVersionVF vf id = true := by
    unfold getLinesVF at hstored
    unfold hasVersionVF
    cases h : lookupVF vf id with
    | none =>
      rw [h] at hstored
      simp at hstored
    | some e => rfl
  unfold add_lines
  rw [if_pos hpresent]

/-- The store of `test_repeated_add` after the first `add_lines`. -/
def c8VF : KnitVF :=
  (add_lines KnitVF.empty "text-1" [] ["hello\n"]).toOption.getD KnitVF.empty

/-- Witness for C8: re-adding `text-1` with identical content errors. -/
theorem c8_repeated_add_always_errors_witness :
    getLinesVF c8VF "text-1" = some ["hello\n"] ∧
      add_lines c8VF "text-1" [] ["hello\n"] = .error (.alreadyPresent "text-1") :=
  ⟨by decide, c8_repeated_add_always_errors c8VF "text-1" [] ["hello\n"] (by decide)⟩

/-! ### C9: annotation of a merge -/

/-- The knit of `test_annotate_merge_4`: ancestor `text-a1` = a,b,c;
side B = `text-a2` = x,y,z; side A = `text-a3` (child of `text-a1`) = a,b,p;
merge `text-am` with parents [`text-a2`, `text-a3`] and lines a,b,z. -/
def annotateMergeKnit : Except KnitError KnitVF := do
  let k1 ← add_lines KnitVF.empty "text-a1" [] ["a\n", "b\n", "c\n"]
  let k2 ← add_lines k1 "text-a2" [] ["x\n", "y\n", "z\n"]
  let k3 ← add_lines k2 "text-a3" ["text-a1"] ["a\n", "b\n", "p\n"]
  add_lines k3 "text-am" ["text-a2", "text-a3"] ["a\n", "b\n", "z\n"]

/-- The knit of `test_annotate_merge_9`: the merge line `k` matches neither
parent, so it is attributed to the merge version itself. -/
def annotateMergeKnit9 : Except KnitError KnitVF := do
  let k1 ← add_lines KnitVF.empty "text-a1" [] ["a\n", "b\n", "c\n"]
  let k2 ← add_lines k1 "text-a2" [] ["x\n", "y\n", "z\n"]
  add_lines k2 "text-am" ["text-a1", "text-a2"] ["k\n", "y\n", "c\n"]

/-- C9: annotate on the merge version of the `test_annotate_merge_4` scenario
attributes lines 0 and 1 (`a`, `b`, unchanged through side A) to the ancestor
`text-a1` of A and line 2 (`z`) to the side B version `text-a2`; and in the
`test_annotate_merge_9` scenario a line matching no parent (`k`) gets the
merge version's own id while unchanged lines keep their ancestors' origins. -/
theorem c9_annotate_merge_origins :
    annotateMergeKnit.toOption.bind (fun vf => annotateVF vf "text-am") =
        some [("text-a1", "a\n"), ("text-a1", "b\n"), ("text-a2", "z\n")] ∧
      annotateMergeKnit9.toOption.bind (fun vf => annotateVF vf "text-am") =
        some [("text-am", "k\n"), ("text-a2", "y\n"), ("text-a1", "c\n")] :=
  ⟨by decide, by decide⟩

/-! ### C6: streams and already-present records -/

theorem assocFind_append_left {β : Type} (c d : List (String × β)) (id : String)
    (v : β) (h : assocFind c id = some v) : assocFind (c ++ d) id = some v := by
  induction c with
  | nil => simp [assocFind] at h
  | cons p rest ih =>
    by_cases hp : p.1 = id
    · simp [assocFind, hp] at h ⊢
      exact h
    · simp [assocFind, hp] at h ⊢
      exact ih h

theorem lookupVF_insertGo_mono (s : List StreamEntry) :
    ∀ (vf t : KnitVF) (id : String) (v : VFEntry),
      insertGo vf s = .ok t → lookupVF vf id = some v → lookupVF t id = some v := by
  induction s with
  | nil =>
    intro vf t id v h hl
    simp only [insertGo] at h
    cases h
    exact hl
  | cons e rest ih =>
    intro vf t id v h hl
    unfold insertGo at h
    cases hle : lookupVF vf e.id with
    | some existing =>
      simp only [hle] at h
      by_cases hc : existing.content.map (fun p => p.2) = e.content.map (fun p => p.2) ∧
          existing.parents = e.parents
      · rw [if_pos hc] at h
        exact ih vf t id v h hl
      · rw [if_neg hc] at h
        cases h
    | none =>
      simp only [hle] at h
      refine ih _ t id v h ?_
      unfold lookupVF at hl ⊢
      exact assocFind_append_left vf.entries _ id v hl

theorem insertGo_all_present (s : List StreamEntry) :
    ∀ (vf t : KnitVF), insertGo vf s = .ok t →
      ∀ e ∈ s, ∃ v : VFEntry, lookupVF t e.id = some v ∧
        v.content.map (fun p => p.2) = e.content.map (fun p => p.2) ∧
        v.parents = e.parents := by
  induction s with
  | nil =>
    intro vf t h e he
    cases he
  | cons e0 rest ih =>
    intro vf t h e he
    unfold insertGo at h
    cases hle : lookupVF vf e0.id with
    | some existing =>
      simp only [hle] at h
      by_cases hc : existing.content.map (fun p => p.2) = e0.content.map (fun p => p.2) ∧
          existing.parents = e0.parents
      · rw [if_pos hc] at h
        rcases List.mem_cons.mp he with heq | htl
        · subst heq
          exact ⟨existing, lookupVF_insertGo_mono rest vf t e.id existing h hle,
            hc.1, hc.2⟩
        · exact ih vf t h e htl
      · rw [if_neg hc] at h
        cases h
    | none =>
      simp only [hle] at h
      rcases List.mem_cons.mp he with heq | htl
      · subst heq
        have hfound : lookupVF ⟨vf.entries ++ [(e.id, ⟨e.parents, e.content⟩)]⟩ e.id =
            some ⟨e.parents, e.content⟩ := by
          unfold lookupVF at hle ⊢
          exact assocFind_append_none _ _ _ hle
        exact ⟨⟨e.parents, e.content⟩,
          lookupVF_insertGo_mono rest _ t e.id _ h hfound, rfl, rfl⟩
      · exact ih _ t h e htl

theorem insertGo_drop_all (s : List StreamEntry) :
    ∀ t : KnitVF,
      (∀ e ∈ s, ∃ v : VFEntry, lookupVF t e.id = some v ∧
        v.content.map (fun p => p.2) = e.content.map (fun p => p.2) ∧
        v.parents = e.parents) →
      insertGo t s = .ok t := by
  induction s with
  | nil =>
    intro t h
    rfl
  | cons e rest ih =>
    intro t h
    obtain ⟨v, hv, hvc, hvp⟩ := h e (List.mem_cons_self e rest)
    conv_lhs => unfold insertGo
    simp only [hv]
    rw [if_pos ⟨hvc, hvp⟩]
    exact ih t (fun e2 he2 => h e2 (List.mem_cons_of_mem e he2))

/-- C6: inserting a data stream that carries a record whose id is already
present compares the existing entry's text lines and parents with the
incoming record: a mismatch is a corruption error, a match silently drops the
record; consequently inserting a stream a second time into the destination it
built from empty leaves the storage exactly as after the first insert. -/
theorem c6_insert_stream_present_records :
    (∀ (vf : KnitVF) (e : StreamEntry) (rest : List StreamEntry) (existing : VFEntry),
      lookupVF vf e.id = some existing →
      ¬(existing.content.map (fun p => p.2) = e.content.map (fun p => p.2) ∧
          existing.parents = e.parents) →
      insert_data_stream vf formatSignature (e :: rest) = .error (.corrupt e.id)) ∧
      (∀ (vf : KnitVF) (e : StreamEntry) (rest : List StreamEntry) (existing : VFEntry),
        lookupVF vf e.id = some existing →
        existing.content.map (fun p => p.2) = e.content.map (fun p => p.2) →
        existing.parents = e.parents →
        insert_data_stream vf formatSignature (e :: rest) =
          insert_data_stream vf formatSignature rest) ∧
      (∀ (s : List StreamEntry) (t : KnitVF),
        insert_data_stream KnitVF.empty formatSignature s = .ok t →
        insert_data_stream t formatSignature s = .ok t) := by
  refine ⟨?_, ?_, ?_⟩
  · intro vf e rest existing hle hmm
    unfold insert_data_stream
    rw [if_neg (fun hh => hh rfl)]
    conv_lhs => unfold insertGo
    simp only [hle]
    rw [if_neg hmm]
  · intro vf e rest existing hle h1 h2
    unfold insert_data_stream
    rw [if_neg (fun hh => hh rfl), if_neg (fun hh => hh rfl)]
    conv_lhs => unfold insertGo
    simp only [hle]
    rw [if_pos ⟨h1, h2⟩]
  · intro s t h
    unfold insert_data_stream at h ⊢
    rw [if_neg (fun hh => hh rfl)] at h ⊢
    exact insertGo_drop_all s t (insertGo_all_present s KnitVF.empty t h)

/-- A one-record stream, as in `test_insert_data_stream_one_record`. -/
def streamA : List StreamEntry := [⟨"text-a", [], [("text-a", "hello\n")]⟩]

/-- The destination built by inserting `streamA` into an empty knit. -/
def c6Target : KnitVF :=
  (insert_data_stream KnitVF.empty formatSignature streamA).toOption.getD KnitVF.empty

/-- A record for the already-present `text-a` with different content, as in
`test_insert_data_stream_inconsistent_version_lines`. -/
def mismatchEntry : StreamEntry := ⟨"text-a", [], [("text-a", "other\n")]⟩

/-- Witness for C6: the mismatch error, the silent drop and the idempotent
second insert evaluated on concrete streams. -/
theorem c6_insert_stream_present_records_witness :
    insert_data_stream KnitVF.empty formatSignature streamA = .ok c6Target ∧
      insert_data_stream c6Target formatSignature [mismatchEntry] =
        .error (.corrupt "text-a") ∧
      insert_data_stream c6Target formatSignature
          [⟨"text-a", [], [("text-a", "hello\n")]⟩] =
        insert_data_stream c6Target formatSignature [] ∧
      insert_data_stream c6Target formatSignature streamA = .ok c6Target :=
  ⟨by decide,
    c6_insert_stream_present_records.1 c6Target mismatchEntry []
      ⟨[], [("text-a", "hello\n")]⟩ (by decide) (by decide),
    c6_insert_stream_present_records.2.1 c6Target ⟨"text-a", [], [("text-a", "hello\n")]⟩
      [] ⟨[], [("text-a", "hello\n")]⟩ (by decide) (by decide) (by decide),
    c6_insert_stream_present_records.2.2 streamA c6Target (by decide)⟩
